import Mathlib

/-!
Verification development for the Dendron excerpt: schema path matching
(tests in `src/unnamed/part_000`), the `VaultAddCommand`
(`src/unnamed/part_001`), the `RenameHeaderCommand`
(`packages/plugin-core/src/commands/RenameHeader.ts`) and the
`setupEngine` CLI entry point (test in
`packages/engine-test-utils/.../setupEngine.spec.ts`).

Editor/host interactions (prompts, document edits, git, file system) are
embedded as explicit environments of oracle responses plus traces of
emitted effects; commands become pure functions from an environment to a
result together with the ordered list of effects they perform.
-/

namespace Dendron

/-! ## Schema path matching (modelled from the spec)

`SchemaUtilsV2.matchPath` and the schema assignment done by
`engine.init()` are not in the excerpt: only their tests are
(`src/unnamed/part_000`).  Following the spec's contract, note paths are
dotted hierarchical names; we embed a path as its list of dot-separated
components (so the dotted path `"bond.foo"` is `["bond", "foo"]`). -/

/-- Data carried by a schema node; per the spec, a node may be flagged
`namespace`, "meaning it matches itself and all descendants".  The flag
is called `isNamespace` here because `namespace` is a Lean keyword. -/
structure SchemaData where
  isNamespace : Bool
deriving DecidableEq, Repr

/-- Modelled from the spec: a schema module as consumed by `matchPath`.
`createModuleProps({fname})` yields a "schema module with root id"
equal to `fname`; only the root id and its namespace flag are relevant
to path matching. -/
structure SchemaModule where
  id : String
  data : SchemaData
deriving DecidableEq, Repr

/-- The matched schema returned by `matchPath`: `{schema: {id}}`. -/
structure SchemaMatchResult where
  id : String
deriving DecidableEq, Repr

/-- The schema module dictionary `engine.schemas`: a mapping from module
id to schema module. -/
def SchemaModuleDict := List (String × SchemaModule)

/-- Association lookup in a schema module dictionary. -/
def lookupMod : List (String × SchemaModule) → String → Option SchemaModule
  | [], _ => none
  | (k, m) :: rest, d => if k = d then some m else lookupMod rest d

/-- Modelled from the spec: `SchemaUtilsV2.matchPath({notePath,
schemaModDict}) -> {schema:{id}} | undefined` is not in the excerpt
(only its tests are).  Per the spec, it "resolves a dotted note path
against a dictionary of schema modules, with namespace schemas matching
themselves and all child paths": the path's first component selects the
domain module; the bare domain path always matches it, and a strictly
deeper path matches only when the module is flagged namespace. -/
def matchPath (notePath : List String) (schemaModDict : List (String × SchemaModule)) :
    Option SchemaMatchResult :=
  match notePath with
  | [] => none
  | domain :: rest =>
    match lookupMod schemaModDict domain with
    | none => none
    | some m =>
      if rest.isEmpty then some ⟨m.id⟩
      else if m.data.isNamespace then some ⟨m.id⟩
      else none

/-- A note's schema association: the `{moduleId, schemaId}` pair. -/
structure SchemaAssoc where
  moduleId : String
  schemaId : String
deriving DecidableEq, Repr

/-- Modelled from the spec: the schema assignment `engine.init()`
performs (exercised by the `matchDomain` tests; the engine itself is not
in the excerpt).  A note "has a schema association (moduleId/schemaId
pair)"; init matches the note's hierarchical name against the schema
dictionary and records the matched module's root id as both fields. -/
def assignSchema (fname : List String) (schemaModDict : List (String × SchemaModule)) :
    Option SchemaAssoc :=
  match matchPath fname schemaModDict with
  | none => none
  | some r => some ⟨r.id, r.id⟩

/-- Modelled from the spec: the notes mapping after `engine.init()`,
restricted to schema associations: every note name is paired with the
schema association computed by matching it against the dictionary. -/
def initNotes (fnames : List (List String)) (schemaModDict : List (String × SchemaModule)) :
    List (List String × Option SchemaAssoc) :=
  fnames.map (fun f => (f, assignSchema f schemaModDict))

/-- A schema module dictionary is well formed when every entry's key is
the stored module's root id (true of `engine.schemas`, which is keyed by
module id). -/
def WellFormedDict (dict : List (String × SchemaModule)) : Prop :=
  ∀ kv ∈ dict, (Prod.snd kv).id = Prod.fst kv

/-! ## setupEngine (modelled from the spec)

`setupEngine` is not in the excerpt (only its test is).  Per the spec it
is the "CLI setup entry point: `setupEngine({wsRoot, noWritePort,
attach, target}) -> {engine, port, server}` used by tests to attach to
an already-running engine process via a TCP port rather than spawning a
new one". -/

/-- The observable state of a running engine process: its TCP port and
its notes mapping. -/
structure RunningEngine where
  port : Nat
  notes : List (String × String)
deriving DecidableEq, Repr

/-- Options accepted by `setupEngine`. -/
structure SetupEngineOpts where
  wsRoot : String
  noWritePort : Bool
  attach : Bool
  target : String
deriving DecidableEq, Repr

/-- The result of `setupEngine`: the engine's notes mapping, the port of
the server it talks to, and whether a new engine process was spawned. -/
structure SetupEngineResp where
  notes : List (String × String)
  port : Nat
  spawnedNew : Bool
deriving DecidableEq, Repr

/-- Modelled from the spec: `setupEngine`.  With `attach: true` and a
running engine available it attaches to that engine over its TCP port
instead of spawning a new engine; otherwise it spawns a fresh engine
(`spawned`) on a fresh port. -/
def setupEngine (opts : SetupEngineOpts) (running : Option RunningEngine)
    (spawned : RunningEngine) : SetupEngineResp :=
  if opts.attach then
    match running with
    | some e => ⟨e.notes, e.port, false⟩
    | none => ⟨spawned.notes, spawned.port, true⟩
  else ⟨spawned.notes, spawned.port, true⟩

/-! ## VaultAddCommand (`src/unnamed/part_001`)

The command is embedded as pure functions from an environment of host
oracle responses (prompt answers, workspace configuration, collaborator
functions from `common-server`/`engine-server` that are not in the
excerpt) to a result paired with the ordered trace of effects the
command performs on the host. -/

/-- Models `VaultRemoteSource`: `"local" | "remote"`.  The first constructor is
quoted because `local` is a Lean keyword. -/
inductive VaultRemoteSource
  | «local»
  | remote
deriving DecidableEq, Repr

/-- Models `DVault`: "a named root directory of notes"; attributes "name,
filesystem path, self-contained flag". -/
structure DVault where
  fsPath : String
  name : Option String := none
  selfContained : Option Bool := none
deriving DecidableEq, Repr

/-- One entry of the `folders` list of a `dendron.code-workspace`
settings file; only its `path` is inspected by the command. -/
structure WorkspaceFolder where
  path : String
deriving DecidableEq, Repr

/-- The `dendron.code-workspace` settings, restricted to the `folders`
list which is the only part the command reads or rewrites. -/
structure WorkspaceSettings where
  folders : List WorkspaceFolder
deriving DecidableEq, Repr

/-- Models `DWorkspace`: a workspace discovered inside a cloned repository,
carrying its name and its vaults. -/
structure DWorkspace where
  name : String
  vaults : List DVault
deriving DecidableEq, Repr

/-- Models `CommandOpts` of `VaultAddCommand`. -/
structure CommandOpts where
  type : VaultRemoteSource
  path : String
  pathRemote : Option String := none
  name : Option String := none
  isSelfContained : Option Bool := none
deriving DecidableEq, Repr

/-- Models `DendronError`: per the spec, "a single error object carrying a
message and optional status code". -/
structure DendronError where
  message : String
  status : Option String := none
deriving DecidableEq, Repr

/-- Models `ERROR_STATUS.INVALID_STATE` (the concrete string value is
immaterial; only its identity is used). -/
def ERROR_STATUS.INVALID_STATE : String := "invalid_state"

/-- Models `PickerUtilsV2.isInputEmpty` as used by the command: a response is
empty when the prompt was dismissed (`undefined`) or the entered text is
the empty string ("If empty, then user cancelled the prompt"). -/
def isInputEmpty : Option String → Bool
  | none => true
  | some s => s = ""

/-- JavaScript truthiness of an optional string (`opts.name` is truthy
exactly when it is neither `undefined` nor `""`). -/
def isTruthy (s : Option String) : Bool := !isInputEmpty s

/-- Models `path.join` restricted to two segments. -/
def joinPath (a b : String) : String := a ++ "/" ++ b

/-- Models `FOLDERS.DEPENDENCIES` (concrete value immaterial). -/
def FOLDERS.DEPENDENCIES : String := "dependencies"

/-- Models `FOLDERS.LOCAL_DEPENDENCY` (concrete value immaterial). -/
def FOLDERS.LOCAL_DEPENDENCY : String := "localhost"

/-- An entry of the remote-source quick pick
(`SourceQuickPickEntry`): its label and git source. -/
structure RemoteEntry where
  label : String
  src : String
deriving DecidableEq, Repr

/-- User-visible prompts shown while gathering inputs. -/
inductive PromptEvent
  | pickSourceType
  | showRemoteQuickPick
  | showInfoMessage (msg : String)
  | inputPath
  | inputName
  | inputVaultName
  | inputRemoteUrl
deriving DecidableEq, Repr

/-- Host effects performed by `VaultAddCommand.execute`. -/
inductive VaultEffect
  | gitClone (url : Option String) (destPath : String)
  | addWorkspace (w : DWorkspace)
  | createVault (v : DVault)
  | createSelfContainedVault (v : DVault)
  | writeCodeWorkspaceSettings (folders : List WorkspaceFolder)
  | addToGitignore (addPath : String) (root : String) (noCreateIfMissing : Bool)
  | ensureDir (dir : String)
  | showInfo (msg : String)
  | reloadWindow
deriving DecidableEq, Repr

/-- Outcome of input gathering: the quick pick may stay open awaiting
more input (`pending`), a dismissed prompt abandons the command
(`cancelled`, i.e. the function returns `undefined`), gathering may
succeed with options, or throw a `DendronError`. -/
inductive GatherOutcome
  | pending
  | cancelled
  | ok (opts : CommandOpts)
  | err (e : DendronError)
deriving DecidableEq, Repr

/-- The environment of `VaultAddCommand`: host prompt responses,
workspace configuration, and the collaborator functions the command
calls (these collaborators are outside the excerpt and stay abstract). -/
structure VaultAddEnv where
  /-- response to the local/remote source-type quick pick -/
  sourceTypeResponse : Option VaultRemoteSource
  /-- accepted entry of the remote-source quick pick -/
  qpSelected : RemoteEntry
  /-- free-text value of the remote-source quick pick -/
  qpValue : String
  /-- response to the standard vault-path input box -/
  pathResponse : Option String
  /-- response to the optional vault-name input box (standard flow) -/
  nameResponse : Option String
  /-- response to the self-contained vault-name input box -/
  vaultNameResponse : Option String
  /-- response to the self-contained remote-URL input box -/
  remoteUrlResponse : Option String
  /-- Models `config.dev?.enableSelfContainedVaults` -/
  enableSelfContainedVaults : Bool
  /-- Models `config.vaults?.map(VaultUtils.getName)` -/
  configVaultNames : List String
  /-- Models `ExtensionProvider.getExtension().type === WorkspaceType.NATIVE` -/
  workspaceTypeNative : Bool
  wsRoot : String
  /-- Models `WorkspaceUtils.getCodeWorkspaceSettings(wsRoot)` -/
  codeWorkspaceSettings : Except Unit WorkspaceSettings
  /-- Models `GitUtils.getRepoNameFromURL` -/
  getRepoNameFromURL : String → String
  /-- Models `GitUtils.remoteUrlToDependencyPath({vaultName, url})` -/
  remoteUrlToDependencyPath : String → String → String
  /-- Models `VaultUtils.normVaultPath({vault, wsRoot})` -/
  normVaultPath : String → String
  /-- Models `GitUtils.getVaultsFromRepo({repoPath, wsRoot, repoUrl})` -/
  getVaultsFromRepo : String → String → Option String → List DVault × Option DWorkspace
  /-- Models `VaultUtils.getRelPath` -/
  getRelPath : DVault → String
  /-- Models `VaultUtils.toWorkspaceFolder` -/
  toWorkspaceFolder : DVault → WorkspaceFolder

/-- Models `VaultAddCommand.gatherVaultStandard`.  The remote branch models the
quick pick's `onDidAccept` handler: a `custom` selection with an empty
endpoint shows an information message and leaves the quick pick open
(`pending`); an empty path response resolves the promise with
`undefined` (the optional name prompt still runs before the ignored
second `resolve`). -/
def VaultAddCommand.gatherVaultStandard (sourceType : VaultRemoteSource)
    (env : VaultAddEnv) : GatherOutcome × List PromptEvent :=
  match sourceType with
  | .remote =>
    let sel := env.qpSelected
    if sel.label = "custom" ∧ isInputEmpty (some env.qpValue) then
      (.pending, [.showRemoteQuickPick, .showInfoMessage "please enter an endpoint"])
    else
      let sourceRemotePath := if sel.label = "custom" then env.qpValue else sel.src
      match env.pathResponse with
      | none => (.cancelled, [.showRemoteQuickPick, .inputPath, .inputName])
      | some p =>
        if p = "" then (.cancelled, [.showRemoteQuickPick, .inputPath, .inputName])
        else
          (.ok { type := .remote, name := env.nameResponse, path := p,
                 pathRemote := some sourceRemotePath },
           [.showRemoteQuickPick, .inputPath, .inputName])
  | .«local» =>
    match env.pathResponse with
    | none => (.cancelled, [.inputPath])
    | some p =>
      if p = "" then (.cancelled, [.inputPath])
      else
        (.ok { type := .«local», name := env.nameResponse, path := p },
         [.inputPath, .inputName])

/-- Models `VaultAddCommand.gatherVaultSelfContained`. -/
def VaultAddCommand.gatherVaultSelfContained (sourceType : VaultRemoteSource)
    (env : VaultAddEnv) : GatherOutcome × List PromptEvent :=
  match env.vaultNameResponse with
  | none => (.cancelled, [.inputVaultName])
  | some vaultName =>
    if vaultName = "" then (.cancelled, [.inputVaultName])
    else if env.configVaultNames.contains vaultName then
      (.err ⟨"There is already a vault with the name " ++ vaultName ++
        ", please pick a different name.", none⟩, [.inputVaultName])
    else
      match sourceType with
      | .«local» =>
        (.ok { type := sourceType, name := some vaultName,
               path := joinPath (joinPath FOLDERS.DEPENDENCIES FOLDERS.LOCAL_DEPENDENCY)
                 vaultName,
               isSelfContained := some true },
         [.inputVaultName])
      | .remote =>
        match env.remoteUrlResponse with
        | none => (.cancelled, [.inputVaultName, .inputRemoteUrl])
        | some remote =>
          if remote = "" then (.cancelled, [.inputVaultName, .inputRemoteUrl])
          else
            (.ok { type := sourceType, name := some vaultName,
                   path := joinPath FOLDERS.DEPENDENCIES
                     (env.remoteUrlToDependencyPath vaultName remote),
                   isSelfContained := some true },
             [.inputVaultName, .inputRemoteUrl])

/-- Models `VaultAddCommand.gatherInputs`: pick the source type, then gather
either a self-contained or a standard vault. -/
def VaultAddCommand.gatherInputs (env : VaultAddEnv) :
    GatherOutcome × List PromptEvent :=
  match env.sourceTypeResponse with
  | none => (.cancelled, [.pickSourceType])
  | some sourceType =>
    let r :=
      if env.enableSelfContainedVaults then
        VaultAddCommand.gatherVaultSelfContained sourceType env
      else
        VaultAddCommand.gatherVaultStandard sourceType env
    (r.1, .pickSourceType :: r.2)

/-- Models `VaultUtils.isSelfContained` (collaborator, not in the excerpt): a
vault is self contained when its `selfContained` flag is set. -/
def VaultUtils.isSelfContained (v : DVault) : Bool := v.selfContained = some true

/-- The pure folder-list update inside
`VaultAddCommand.addVaultToWorkspace`: if no folder entry's `path`
equals the vault's relative path, the vault's workspace folder is
prepended to the front of the list (and the settings are rewritten,
second component `true`); otherwise the list is untouched. -/
def addVaultFolders (toWsFolder : DVault → WorkspaceFolder)
    (relPath : DVault → String) (vault : DVault)
    (folders : List WorkspaceFolder) : List WorkspaceFolder × Bool :=
  if folders.any (fun ent => ent.path = relPath vault) then (folders, false)
  else (toWsFolder vault :: folders, true)

/-- Models `VaultAddCommand.addVaultToWorkspace`: returns the effects performed
(first component) and either unit or the thrown `DendronError`.  In a
NATIVE workspace it returns immediately; a failed read of
`dendron.code-workspace` throws `INVALID_STATE`; otherwise it
conditionally rewrites the folders list, then patches `.gitignore`,
ensures the vault directory, and ignores the cache files there. -/
def VaultAddCommand.addVaultToWorkspace (vault : DVault) (env : VaultAddEnv) :
    List VaultEffect × Except DendronError Unit :=
  if env.workspaceTypeNative then ([], .ok ())
  else
    match env.codeWorkspaceSettings with
    | .error _ =>
      ([], .error ⟨"no dendron.code-workspace found", some ERROR_STATUS.INVALID_STATE⟩)
    | .ok wsSettings =>
      let upd := addVaultFolders env.toWorkspaceFolder env.getRelPath vault
        wsSettings.folders
      let folderFx :=
        if upd.2 then [VaultEffect.writeCodeWorkspaceSettings upd.1] else []
      (folderFx ++
        [.addToGitignore vault.fsPath env.wsRoot true,
         .ensureDir (joinPath env.wsRoot vault.fsPath),
         .addToGitignore ".dendron.cache.*" (joinPath env.wsRoot vault.fsPath) false],
       .ok ())

/-- The `for (const vault of vaults)` loop of
`VaultAddCommand.addWorkspaceToWorkspace`: `addVaultToWorkspace` on each
vault in order, stopping at the first thrown error. -/
def addVaultsToWorkspace : List DVault → VaultAddEnv →
    List VaultEffect × Except DendronError Unit
  | [], _ => ([], .ok ())
  | v :: vs, env =>
    let r := VaultAddCommand.addVaultToWorkspace v env
    match r.2 with
    | .error e => (r.1, .error e)
    | .ok _ =>
      let rest := addVaultsToWorkspace vs env
      (r.1 ++ rest.1, rest.2)

/-- Models `VaultAddCommand.addWorkspaceToWorkspace`: patch each vault of the
discovered workspace into the code-workspace file one at a time, then
add the workspace directory to `.gitignore`, ensure it exists, and
ignore cache files inside it. -/
def VaultAddCommand.addWorkspaceToWorkspace (w : DWorkspace) (env : VaultAddEnv) :
    List VaultEffect × Except DendronError Unit :=
  let r := addVaultsToWorkspace w.vaults env
  match r.2 with
  | .error e => (r.1, .error e)
  | .ok _ =>
    (r.1 ++
      [.addToGitignore w.name env.wsRoot true,
       .ensureDir (joinPath env.wsRoot w.name),
       .addToGitignore ".dendron.cache.*" (joinPath env.wsRoot w.name) false],
     .ok ())

/-- The vault-naming step of `VaultAddCommand.handleRemoteRepo`:
`if (_.size(vaults) === 1 && opts.name) vaults[0].name = opts.name`
(`opts.name` is truthy only when neither `undefined` nor empty). -/
def renameDiscovered (vaults : List DVault) (name : Option String) : List DVault :=
  match vaults, name with
  | [v], some n => if n = "" then [v] else [{ v with name := some n }]
  | vs, _ => vs

/-- The `for (const vault of vaults)` loop of
`VaultAddCommand.handleRemoteRepo` when no workspace was discovered:
`wsService.createVault` then `addVaultToWorkspace` for each vault in
order, stopping at the first thrown error. -/
def registerVaults : List DVault → VaultAddEnv →
    List VaultEffect × Except DendronError Unit
  | [], _ => ([], .ok ())
  | v :: vs, env =>
    let r := VaultAddCommand.addVaultToWorkspace v env
    match r.2 with
    | .error e => (VaultEffect.createVault v :: r.1, .error e)
    | .ok _ =>
      let rest := registerVaults vs env
      (VaultEffect.createVault v :: (r.1 ++ rest.1), rest.2)

/-- Models `VaultAddCommand.handleRemoteRepo`: clone the repository, discover
vaults/workspaces in the clone, rename the single discovered vault when
a name was supplied, then register either the workspace or each vault. -/
def VaultAddCommand.handleRemoteRepo (opts : CommandOpts) (env : VaultAddEnv) :
    List VaultEffect × Except DendronError (List DVault × Option DWorkspace) :=
  let cloneFx := VaultEffect.gitClone opts.pathRemote opts.path
  let disc := env.getVaultsFromRepo (joinPath env.wsRoot opts.path) env.wsRoot
    opts.pathRemote
  let vaults := renameDiscovered disc.1 opts.name
  match disc.2 with
  | some w =>
    let r := VaultAddCommand.addWorkspaceToWorkspace w env
    (cloneFx :: VaultEffect.addWorkspace w :: r.1,
     match r.2 with
     | .error e => .error e
     | .ok _ => .ok (vaults, some w))
  | none =>
    let r := registerVaults vaults env
    (cloneFx :: r.1,
     match r.2 with
     | .error e => .error e
     | .ok _ => .ok (vaults, none))

/-- Models `VaultAddCommand.execute`: remote options go through
`handleRemoteRepo`; local options create the vault (self-contained or
standard) and patch it into the workspace.  On success the command shows
an information message and reloads the host window last. -/
def VaultAddCommand.execute (opts : CommandOpts) (env : VaultAddEnv) :
    List VaultEffect × Except DendronError (List DVault) :=
  match opts.type with
  | .remote =>
    let r := VaultAddCommand.handleRemoteRepo opts env
    match r.2 with
    | .error e => (r.1, .error e)
    | .ok vw =>
      (r.1 ++ [.showInfo "finished adding vault", .reloadWindow], .ok vw.1)
  | .«local» =>
    let vault : DVault :=
      ⟨env.normVaultPath opts.path, opts.name, opts.isSelfContained⟩
    let regFx :=
      if VaultUtils.isSelfContained vault then
        [VaultEffect.createSelfContainedVault vault]
      else [VaultEffect.createVault vault]
    let r := VaultAddCommand.addVaultToWorkspace vault env
    match r.2 with
    | .error e => (regFx ++ r.1, .error e)
    | .ok _ =>
      (regFx ++ r.1 ++ [.showInfo "finished adding vault", .reloadWindow],
       .ok [vault])

/-- A step of a full `VaultAddCommand` run: a prompt shown while
gathering inputs or an effect performed while executing. -/
inductive VaultAddStep
  | prompt (p : PromptEvent)
  | effect (e : VaultEffect)
deriving DecidableEq, Repr

/-- Result of a full `VaultAddCommand` run. -/
inductive VaultAddResult
  | pending
  | cancelled
  | err (e : DendronError)
  | done (vaults : List DVault)
deriving DecidableEq, Repr

/-- A full `VaultAddCommand` run as driven by the command framework:
`gatherInputs`, then `execute` on the gathered options; a cancelled or
pending gathering never reaches `execute`. -/
def VaultAddCommand.run (env : VaultAddEnv) : VaultAddResult × List VaultAddStep :=
  match VaultAddCommand.gatherInputs env with
  | (.pending, t) => (.pending, t.map .prompt)
  | (.cancelled, t) => (.cancelled, t.map .prompt)
  | (.err e, t) => (.err e, t.map .prompt)
  | (.ok opts, t) =>
    let r := VaultAddCommand.execute opts env
    match r.2 with
    | .error e => (.err e, t.map .prompt ++ r.1.map .effect)
    | .ok vaults => (.done vaults, t.map .prompt ++ r.1.map .effect)

/-! ## RenameHeaderCommand
(`packages/plugin-core/src/commands/RenameHeader.ts`)

The markdown parser (`MDUtilsV5` + `visit` + `AnchorUtils`), the
slugger, and the engine are collaborators outside the excerpt; they
appear as abstract functions in the environment.  The command itself is
embedded as a pure function emitting its ordered trace of editor/engine
steps. -/

/-- A position in a text document. -/
structure Position where
  line : Nat
  character : Nat
deriving DecidableEq, Repr

/-- A range in a text document (`end` is quoted: Lean keyword). -/
structure Range where
  start : Position
  «end» : Position
deriving DecidableEq, Repr

/-- The `oldHeader` option: "the contents of the old header" and "the
region of the document containing the text of the old header". -/
structure OldHeader where
  text : String
  range : Range
deriving DecidableEq, Repr

/-- The note the rename is happening in, reduced to the fields the
command reads: `note.fname` and `VaultUtils.getName(note.vault)`. -/
structure RHNote where
  fname : String
  vaultName : String
deriving DecidableEq, Repr

/-- A note location as passed to `engine.renameNote` (`alias` is
quoted: Lean keyword). -/
structure NoteLoc where
  fname : String
  vaultName : String
  anchorHeader : String
  «alias» : String
deriving DecidableEq, Repr

/-- The argument of `engine.renameNote({oldLoc, newLoc})`. -/
structure RenameNoteArgs where
  oldLoc : NoteLoc
  newLoc : NoteLoc
deriving DecidableEq, Repr

/-- Models `CommandOpts` of `RenameHeaderCommand` (all fields optional; the
whole record may itself be `undefined`). -/
structure RHCommandOpts where
  oldHeader : Option OldHeader := none
  newHeader : Option String := none
  source : Option String := none
  note : Option RHNote := none
deriving DecidableEq, Repr

/-- The fully gathered options (`Required<CommandOpts>`). -/
structure RHRequiredOpts where
  oldHeader : OldHeader
  newHeader : String
  source : String
  note : RHNote
deriving DecidableEq, Repr

/-- The observable steps of a `RenameHeaderCommand` run, in order:
parsing the selected line, prompting for the new text, replacing the
header range in the document, re-parsing the new text to normalize it,
saving the document, refreshing decorations, and the engine rename. -/
inductive RHEvent
  | parseSelectedLine (line : String)
  | promptNewHeader
  | editReplace (range : Range) (text : String)
  | reparseNewHeader (text : String)
  | saveDocument
  | updateDecorations
  | renameNote (args : RenameNoteArgs)
deriving DecidableEq, Repr

/-- Environment of `RenameHeaderCommand`: host state, prompt responses
and collaborator functions. -/
structure RenameHeaderEnv where
  /-- Models `VSCodeUtils.getSelection()`: when the editor and a selection
  exist, the text of the line the selection starts on -/
  selectionLine : Option String
  /-- Models `wsUtils.getActiveNote()` -/
  activeNote : Option RHNote
  /-- the markdown parse of a line combined with
  `AnchorUtils.headerText` / `headerTextPosition`: the heading's exact
  text and its range on the line, if the line holds a heading -/
  parseHeading : String → Option (String × Range)
  /-- Models `window.showInputBox` response for the new header text -/
  newHeaderResponse : Option String
  /-- Models `VSCodeUtils.getActiveTextEditor()` is defined -/
  activeEditor : Bool
  /-- Models `WSUtils.getNoteFromDocument(document)` -/
  noteFromDocument : Option RHNote
  /-- re-parse of `"## " ++ newHeader` combined with
  `AnchorUtils.headerText`: the normalized header text, if the parse
  yields a heading (otherwise `newAnchorHeader` keeps `newHeader`) -/
  reparseHeaderText : String → Option String
  /-- Models `getSlugger().slug` -/
  slug : String → String
  /-- payload of the `engine.renameNote` response (opaque) -/
  renameNotePayload : Nat

/-- Models `RenameHeaderCommand.gatherInputs`: fetch the active note (throwing
when there is none); resolve the old header from the options or by
parsing the selected line (throwing when there is no selection or the
line holds no heading); then prompt for the new header text unless it
was supplied, returning `undefined` when the prompt is dismissed or
left empty. -/
def RenameHeaderCommand.gatherInputs (opts : Option RHCommandOpts)
    (env : RenameHeaderEnv) :
    List RHEvent × Except DendronError (Option RHRequiredOpts) :=
  let o := opts.getD {}
  match env.activeNote with
  | none => ([], .error ⟨"You must first open a note to rename a header.", none⟩)
  | some note =>
    let resolved : List RHEvent × Except DendronError OldHeader :=
      match o.oldHeader with
      | some h => ([], .ok h)
      | none =>
        match env.selectionLine with
        | none =>
          ([], .error ⟨"You must first select the header you want to rename.", none⟩)
        | some line =>
          match env.parseHeading line with
          | none =>
            ([.parseSelectedLine line],
             .error ⟨"You must first select the header you want to rename.", none⟩)
          | some tr => ([.parseSelectedLine line], .ok ⟨tr.1, tr.2⟩)
    match resolved with
    | (t, .error e) => (t, .error e)
    | (t, .ok oldHeader) =>
      match o.newHeader with
      | some nh =>
        (t, .ok (some ⟨oldHeader, nh, o.source.getD "command palette", note⟩))
      | none =>
        match env.newHeaderResponse with
        | none => (t ++ [.promptNewHeader], .ok none)
        | some nh =>
          if nh = "" then (t ++ [.promptNewHeader], .ok none)
          else
            (t ++ [.promptNewHeader],
             .ok (some ⟨oldHeader, nh, o.source.getD "command palette", note⟩))

/-- Models `RenameHeaderCommand.execute`: when the new header, the old header,
the active editor or the note of the open document is missing, return
`undefined` having performed nothing; otherwise replace the header
range, re-parse the new text to normalize it, save the document,
refresh decorations, and call `engine.renameNote` keyed by the
slugified old and normalized-new header texts. -/
def RenameHeaderCommand.execute (opts : Option RHCommandOpts)
    (env : RenameHeaderEnv) : List RHEvent × Option Nat :=
  let o := opts.getD {}
  match o.newHeader, o.oldHeader, env.activeEditor with
  | some newHeader, some oldHeader, true =>
    match env.noteFromDocument with
    | none => ([], none)
    | some note =>
      let newAnchorHeader := (env.reparseHeaderText newHeader).getD newHeader
      ([.editReplace oldHeader.range newHeader,
        .reparseNewHeader newHeader,
        .saveDocument,
        .updateDecorations,
        .renameNote
          ⟨⟨note.fname, note.vaultName, env.slug oldHeader.text, oldHeader.text⟩,
           ⟨note.fname, note.vaultName, env.slug newAnchorHeader, newAnchorHeader⟩⟩],
       some env.renameNotePayload)
  | _, _, _ => ([], none)

/-- A full `RenameHeaderCommand` run as driven by the command
framework: `gatherInputs`, then `execute` on the gathered options;
cancelled gathering never reaches `execute`. -/
def RenameHeaderCommand.run (opts : Option RHCommandOpts)
    (env : RenameHeaderEnv) : List RHEvent × Except DendronError (Option Nat) :=
  match RenameHeaderCommand.gatherInputs opts env with
  | (t, .error e) => (t, .error e)
  | (t, .ok none) => (t, .ok none)
  | (t, .ok (some req)) =>
    let r := RenameHeaderCommand.execute
      (some ⟨some req.oldHeader, some req.newHeader, some req.source, some req.note⟩)
      env
    (t ++ r.1, .ok r.2)

/-! ### Concrete environments used by closed theorems -/

/-- A standard-flow environment in which the user answers the vault-path
prompt with `"vault2"` and dismisses the optional vault-name prompt. -/
def stdEnvNameCancelled : VaultAddEnv :=
  { sourceTypeResponse := some .«local»
    qpSelected := ⟨"custom", ""⟩
    qpValue := ""
    pathResponse := some "vault2"
    nameResponse := none
    vaultNameResponse := none
    remoteUrlResponse := none
    enableSelfContainedVaults := false
    configVaultNames := []
    workspaceTypeNative := false
    wsRoot := "/ws"
    codeWorkspaceSettings := Except.ok ⟨[]⟩
    getRepoNameFromURL := fun _ => "repo"
    remoteUrlToDependencyPath := fun n _ => n
    normVaultPath := fun p => p
    getVaultsFromRepo := fun _ _ _ => ([], none)
    getRelPath := fun v => v.fsPath
    toWorkspaceFolder := fun v => ⟨v.fsPath⟩ }

/-- A rename-header environment in which every step succeeds: the
selected line `"## Hello"` parses to the header `Hello`, the user enters
`World`, and the document resolves to the note `foo` in `vault1`.  The
slugger and normalizer are identities on these inputs. -/
def rhEnvHappy : RenameHeaderEnv :=
  { selectionLine := some "## Hello"
    activeNote := some ⟨"foo", "vault1"⟩
    parseHeading := fun line =>
      if line = "## Hello" then some ("Hello", ⟨⟨0, 3⟩, ⟨0, 8⟩⟩) else none
    newHeaderResponse := some "World"
    activeEditor := true
    noteFromDocument := some ⟨"foo", "vault1"⟩
    reparseHeaderText := fun s => some s
    slug := fun s => s
    renameNotePayload := 2 }

/-- A vault-add environment for the remote standard flow: the user picks
the `dendron` preset, accepts path `"vault2"`, enters name `"myvault"`,
and the cloned repository yields a single vault and no workspace. -/
def envRemoteHappy : VaultAddEnv :=
  { sourceTypeResponse := some .remote
    qpSelected := ⟨"dendron", "https://github.com/dendronhq/dendron-site.git"⟩
    qpValue := ""
    pathResponse := some "vault2"
    nameResponse := some "myvault"
    vaultNameResponse := none
    remoteUrlResponse := none
    enableSelfContainedVaults := false
    configVaultNames := []
    workspaceTypeNative := false
    wsRoot := "/ws"
    codeWorkspaceSettings := Except.ok ⟨[]⟩
    getRepoNameFromURL := fun _ => "dendron-site"
    remoteUrlToDependencyPath := fun n _ => n
    normVaultPath := fun p => p
    getVaultsFromRepo := fun _ _ _ => ([⟨"vault2", none, none⟩], none)
    getRelPath := fun v => v.fsPath
    toWorkspaceFolder := fun v => ⟨v.fsPath⟩ }

end Dendron

namespace Dendron

/-- C1: For every schema module flagged "namespace" whose root is named
`N`, `matchPath` resolves both the note path `N` and every child path
`N.<suffix>` to that module (the returned schema id equals `N`); for a
non-namespace schema module with id `F`, only the note path `F` resolves
to it and no other path does. -/
theorem matchPath_namespace_and_regular
    (dict : List (String × SchemaModule))
    (hwf : WellFormedDict dict)
    (N F : String) (mN mF : SchemaModule)
    (hN : lookupMod dict N = some mN) (hNid : mN.id = N)
    (hNns : mN.data.isNamespace = true)
    (hF : lookupMod dict F = some mF) (hFid : mF.id = F)
    (hFns : mF.data.isNamespace = false) :
    matchPath [N] dict = some ⟨N⟩ ∧
    (∀ suffix : List String, suffix ≠ [] → matchPath (N :: suffix) dict = some ⟨N⟩) ∧
    matchPath [F] dict = some ⟨F⟩ ∧
    (∀ p : List String, matchPath p dict = some ⟨F⟩ → p = [F]) := by
  refine ⟨?_, ?_, ?_, ?_⟩
  · simp [matchPath, hN, hNid]
  · intro suffix hs
    cases suffix with
    | nil => exact absurd rfl hs
    | cons a as => simp [matchPath, hN, hNid, hNns]
  · simp [matchPath, hF, hFid]
  · intro p hp
    cases p with
    | nil => simp [matchPath] at hp
    | cons d rest =>
      cases hlk : lookupMod dict d with
      | none => simp [matchPath, hlk] at hp
      | some m =>
        have hmid : m.id = d := by
          -- lookup only returns entries of the dictionary, whose ids
          -- match their keys by well-formedness
          clear hp hN hF
          induction dict with
          | nil => simp [lookupMod] at hlk
          | cons kv rest ih =>
            obtain ⟨k, mm⟩ := kv
            by_cases hk : k = d
            · subst hk
              simp [lookupMod] at hlk
              have := hwf (k, mm) (by simp)
              simp at this
              rw [← hlk]; exact this
            · simp [lookupMod, hk] at hlk
              exact ih (fun kv hkv => hwf kv (List.mem_cons_of_mem _ hkv)) hlk
        cases rest with
        | nil =>
          simp [matchPath, hlk] at hp
          rw [hmid] at hp
          simp [hp]
        | cons b bs =>
          simp [matchPath, hlk] at hp
          cases hns : m.data.isNamespace with
          | false => simp [hns] at hp
          | true =>
            simp [hns] at hp
            have hdF : d = F := by rw [← hmid, hp]
            -- then m is the module found at key F, i.e. mF, contradicting
            -- that mF is not a namespace module
            subst hdF
            rw [hF] at hlk
            cases hlk
            rw [hFns] at hns
            exact absurd hns (by simp)

/-- Closed witness for `matchPath_namespace_and_regular` on the concrete
dictionary from the tests: namespace module `bond` and regular module
`foo`. -/
theorem matchPath_namespace_and_regular_witness :
    matchPath ["bond"]
      [("bond", ⟨"bond", ⟨true⟩⟩), ("foo", ⟨"foo", ⟨false⟩⟩)] = some ⟨"bond"⟩ ∧
    matchPath ["bond", "foo"]
      [("bond", ⟨"bond", ⟨true⟩⟩), ("foo", ⟨"foo", ⟨false⟩⟩)] = some ⟨"bond"⟩ ∧
    matchPath ["foo"]
      [("bond", ⟨"bond", ⟨true⟩⟩), ("foo", ⟨"foo", ⟨false⟩⟩)] = some ⟨"foo"⟩ := by
  have h := matchPath_namespace_and_regular
    [("bond", ⟨"bond", ⟨true⟩⟩), ("foo", ⟨"foo", ⟨false⟩⟩)]
    (by intro kv hkv; fin_cases hkv <;> rfl)
    "bond" "foo" ⟨"bond", ⟨true⟩⟩ ⟨"foo", ⟨false⟩⟩
    (by rfl) rfl rfl (by rfl) rfl rfl
  exact ⟨h.1, h.2.1 ["foo"] (by simp), h.2.2.1⟩

/-- C2: After `engine.init()` completes, every note whose hierarchical
name matches a schema module carries that module's schema association as
a moduleId/schemaId pair: a note named `F` matching a non-namespace
domain module `F` has schema `{moduleId: F, schemaId: F}`, and a note
named `N.<child>` under a namespace domain module `N` has schema
`{moduleId: N, schemaId: N}`. -/
theorem init_assigns_domain_schema
    (dict : List (String × SchemaModule))
    (fnames : List (List String))
    (N F child : String) (mN mF : SchemaModule)
    (hN : lookupMod dict N = some mN) (hNid : mN.id = N)
    (hNns : mN.data.isNamespace = true)
    (hF : lookupMod dict F = some mF) (hFid : mF.id = F) :
    (∀ entry ∈ initNotes fnames dict, entry.1 = [F] →
      entry.2 = some ⟨F, F⟩) ∧
    (∀ entry ∈ initNotes fnames dict, entry.1 = [N, child] →
      entry.2 = some ⟨N, N⟩) := by
  constructor
  · intro entry hmem hname
    simp [initNotes] at hmem
    obtain ⟨f, _, hf⟩ := hmem
    subst hf
    simp at hname
    subst hname
    simp [assignSchema, matchPath, hF, hFid]
  · intro entry hmem hname
    simp [initNotes] at hmem
    obtain ⟨f, _, hf⟩ := hmem
    subst hf
    simp at hname
    subst hname
    simp [assignSchema, matchPath, hN, hNid, hNns]

/-- Closed witness for `init_assigns_domain_schema` on the dictionary
and notes from the `matchDomain` tests: regular module `foo`, namespace
module `bond`, notes `foo` and `bond.ch1`. -/
theorem init_assigns_domain_schema_witness :
    (("foo" :: [], assignSchema ["foo"]
        [("bond", ⟨"bond", ⟨true⟩⟩), ("foo", ⟨"foo", ⟨false⟩⟩)]) ∈
      initNotes [["foo"], ["bond", "ch1"]]
        [("bond", ⟨"bond", ⟨true⟩⟩), ("foo", ⟨"foo", ⟨false⟩⟩)] →
      assignSchema ["foo"]
        [("bond", ⟨"bond", ⟨true⟩⟩), ("foo", ⟨"foo", ⟨false⟩⟩)] =
        some ⟨"foo", "foo"⟩) ∧
    assignSchema ["bond", "ch1"]
      [("bond", ⟨"bond", ⟨true⟩⟩), ("foo", ⟨"foo", ⟨false⟩⟩)] =
      some ⟨"bond", "bond"⟩ := by
  have h := init_assigns_domain_schema
    [("bond", ⟨"bond", ⟨true⟩⟩), ("foo", ⟨"foo", ⟨false⟩⟩)]
    [["foo"], ["bond", "ch1"]]
    "bond" "foo" "ch1" ⟨"bond", ⟨true⟩⟩ ⟨"foo", ⟨false⟩⟩
    (by rfl) rfl rfl (by rfl) rfl
  refine ⟨fun hmem => ?_, ?_⟩
  · exact h.1 _ hmem rfl
  · exact h.2 (["bond", "ch1"], assignSchema ["bond", "ch1"]
      [("bond", ⟨"bond", ⟨true⟩⟩), ("foo", ⟨"foo", ⟨false⟩⟩)])
      (by simp [initNotes]) rfl

/-- C6: When `setupEngine` is called with `attach: true` (and
`noWritePort: true`) against a workspace with an already-running engine,
it attaches to that engine over its TCP port rather than spawning a new
one: the returned port equals the running engine's port, and the
returned engine's notes mapping equals the running engine's notes
mapping. -/
theorem setupEngine_attach_reuses_running_engine
    (opts : SetupEngineOpts) (e spawned : RunningEngine)
    (hattach : opts.attach = true) (hnw : opts.noWritePort = true) :
    (setupEngine opts (some e) spawned).port = e.port ∧
    (setupEngine opts (some e) spawned).notes = e.notes ∧
    (setupEngine opts (some e) spawned).spawnedNew = false := by
  simp [setupEngine, hattach]

/-- Closed witness for `setupEngine_attach_reuses_running_engine`,
mirroring the test: attach over port 5678 to an engine with one note. -/
theorem setupEngine_attach_reuses_running_engine_witness :
    (setupEngine ⟨"/tmp/ws", true, true, "cli"⟩
      (some ⟨5678, [("root", "root note")]⟩) ⟨9999, []⟩).port = 5678 ∧
    (setupEngine ⟨"/tmp/ws", true, true, "cli"⟩
      (some ⟨5678, [("root", "root note")]⟩) ⟨9999, []⟩).notes =
      [("root", "root note")] := by
  have h := setupEngine_attach_reuses_running_engine
    ⟨"/tmp/ws", true, true, "cli"⟩ ⟨5678, [("root", "root note")]⟩
    ⟨9999, []⟩ rfl rfl
  exact ⟨h.1, h.2.1⟩

/-- C10: `RenameHeaderCommand.execute` returns `undefined` without
editing the document, saving, or invoking `engine.renameNote` whenever
any of the following preconditions fails: the new header is undefined,
the old header is undefined, there is no active text editor, or the
active document does not resolve to a note.  (The empty trace records
that no effect at all was performed.) -/
theorem execute_noop_on_missing_preconditions
    (opts : Option RHCommandOpts) (env : RenameHeaderEnv)
    (h : (opts.getD {}).newHeader = none ∨ (opts.getD {}).oldHeader = none ∨
      env.activeEditor = false ∨ env.noteFromDocument = none) :
    RenameHeaderCommand.execute opts env = ([], none) := by
  unfold RenameHeaderCommand.execute
  rcases hnew : (opts.getD {}).newHeader with _ | nh <;>
    rcases hold : (opts.getD {}).oldHeader with _ | oh <;>
    rcases hed : env.activeEditor with _ | _ <;>
    rcases hnote : env.noteFromDocument with _ | note <;>
    simp_all

/-- Closed witness for `execute_noop_on_missing_preconditions`: with no
options at all (hence no new header), `execute` performs nothing. -/
theorem execute_noop_on_missing_preconditions_witness :
    RenameHeaderCommand.execute none
      ⟨none, none, fun _ => none, none, false, none, fun _ => none,
       fun s => s, 0⟩ = ([], none) :=
  execute_noop_on_missing_preconditions none
    ⟨none, none, fun _ => none, none, false, none, fun _ => none,
     fun s => s, 0⟩ (Or.inl rfl)

/-- C9: `addVaultToWorkspace` is idempotent with respect to the
workspace-folder list: if a folder entry with the vault's relative path
is already present in the code-workspace settings, the settings file is
not rewritten; otherwise the vault's folder entry is prepended to the
front of the folders list exactly once, so applying the operation twice
for the same vault yields the same folders list as applying it once.
The coherence hypothesis records the contract of the collaborators
`VaultUtils.toWorkspaceFolder` / `VaultUtils.getRelPath` (outside the
excerpt): the prepended entry's `path` is the vault's relative path. -/
theorem addVaultToWorkspace_folders_idempotent
    (env : VaultAddEnv) (vault : DVault) (ws : WorkspaceSettings)
    (hcoh : (env.toWorkspaceFolder vault).path = env.getRelPath vault)
    (hnative : env.workspaceTypeNative = false)
    (hsettings : env.codeWorkspaceSettings = Except.ok ws) :
    (ws.folders.any (fun ent => ent.path = env.getRelPath vault) = true →
      addVaultFolders env.toWorkspaceFolder env.getRelPath vault ws.folders =
        (ws.folders, false) ∧
      ∀ fs, VaultEffect.writeCodeWorkspaceSettings fs ∉
        (VaultAddCommand.addVaultToWorkspace vault env).1) ∧
    (ws.folders.any (fun ent => ent.path = env.getRelPath vault) = false →
      addVaultFolders env.toWorkspaceFolder env.getRelPath vault ws.folders =
        (env.toWorkspaceFolder vault :: ws.folders, true)) ∧
    (∀ folders : List WorkspaceFolder,
      (addVaultFolders env.toWorkspaceFolder env.getRelPath vault
        (addVaultFolders env.toWorkspaceFolder env.getRelPath vault folders).1).1 =
      (addVaultFolders env.toWorkspaceFolder env.getRelPath vault folders).1) := by
  refine ⟨?_, ?_, ?_⟩
  · intro hany
    refine ⟨by simp [addVaultFolders, hany], ?_⟩
    intro fs
    simp [VaultAddCommand.addVaultToWorkspace, hnative, hsettings,
      addVaultFolders, hany]
  · intro hany
    simp [addVaultFolders, hany]
  · intro folders
    by_cases hany : folders.any (fun ent => ent.path = env.getRelPath vault) = true
    · simp [addVaultFolders, hany]
    · simp only [Bool.not_eq_true] at hany
      have h1 : addVaultFolders env.toWorkspaceFolder env.getRelPath vault folders =
          (env.toWorkspaceFolder vault :: folders, true) := by
        simp [addVaultFolders, hany]
      rw [h1]
      have h2 : (env.toWorkspaceFolder vault :: folders).any
          (fun ent => ent.path = env.getRelPath vault) = true := by
        simp [List.any_cons, hcoh]
      simp [addVaultFolders, h2]

/-- Closed witness for `addVaultToWorkspace_folders_idempotent`: a vault
not yet in a one-entry folders list is prepended, and re-running the
update leaves the list unchanged. -/
theorem addVaultToWorkspace_folders_idempotent_witness :
    addVaultFolders (fun v => ⟨v.fsPath⟩) (fun v => v.fsPath)
      ⟨"vault2", none, none⟩ [⟨"vault1"⟩] = ([⟨"vault2"⟩, ⟨"vault1"⟩], true) ∧
    (addVaultFolders (fun v => ⟨v.fsPath⟩) (fun v => v.fsPath)
      ⟨"vault2", none, none⟩
      (addVaultFolders (fun v => ⟨v.fsPath⟩) (fun v => v.fsPath)
        ⟨"vault2", none, none⟩ [⟨"vault1"⟩]).1).1 =
    (addVaultFolders (fun v => ⟨v.fsPath⟩) (fun v => v.fsPath)
      ⟨"vault2", none, none⟩ [⟨"vault1"⟩]).1 := by
  have h := addVaultToWorkspace_folders_idempotent
    { sourceTypeResponse := none, qpSelected := ⟨"", ""⟩, qpValue := "",
      pathResponse := none, nameResponse := none, vaultNameResponse := none,
      remoteUrlResponse := none, enableSelfContainedVaults := false,
      configVaultNames := [], workspaceTypeNative := false, wsRoot := "/ws",
      codeWorkspaceSettings := Except.ok ⟨[⟨"vault1"⟩]⟩,
      getRepoNameFromURL := fun _ => "", remoteUrlToDependencyPath := fun _ _ => "",
      normVaultPath := fun p => p, getVaultsFromRepo := fun _ _ _ => ([], none),
      getRelPath := fun v => v.fsPath, toWorkspaceFolder := fun v => ⟨v.fsPath⟩ }
    ⟨"vault2", none, none⟩ ⟨[⟨"vault1"⟩]⟩ rfl rfl rfl
  exact ⟨h.2.1 (by decide), h.2.2 [⟨"vault1"⟩]⟩

/-- C8: In `handleRemoteRepo`, the user-supplied vault name overrides
the discovered vault's name if and only if the cloned repository yields
exactly one vault and a (truthy) name was supplied; when the repository
yields more than one vault (or none), or no name was supplied, every
discovered vault's name is left unchanged.  The last conjunct ties the
naming step to `handleRemoteRepo`'s returned vault list. -/
theorem handleRemoteRepo_name_override
    (env : VaultAddEnv) (opts : CommandOpts)
    (v : DVault) (vs : List DVault) (n : String) (nm : Option String)
    (hn : n ≠ "") :
    renameDiscovered [v] (some n) = [{ v with name := some n }] ∧
    renameDiscovered vs none = vs ∧
    renameDiscovered vs (some "") = vs ∧
    (vs.length ≠ 1 → renameDiscovered vs nm = vs) ∧
    (∀ vaultsOut wsOut,
      (VaultAddCommand.handleRemoteRepo opts env).2 = .ok (vaultsOut, wsOut) →
      vaultsOut = renameDiscovered
        (env.getVaultsFromRepo (joinPath env.wsRoot opts.path) env.wsRoot
          opts.pathRemote).1 opts.name) := by
  refine ⟨by simp [renameDiscovered, hn], ?_, ?_, ?_, ?_⟩
  · rcases vs with _ | ⟨v', vs'⟩ <;> simp [renameDiscovered]
  · rcases vs with _ | ⟨v', _ | ⟨v'', vs''⟩⟩ <;> simp [renameDiscovered]
  · intro hlen
    rcases vs with _ | ⟨v', _ | ⟨v'', vs''⟩⟩
    · rcases nm with _ | n' <;> simp [renameDiscovered]
    · exact absurd rfl hlen
    · rcases nm with _ | n' <;> simp [renameDiscovered]
  · intro vaultsOut wsOut hout
    unfold VaultAddCommand.handleRemoteRepo at hout
    rcases hdisc : (env.getVaultsFromRepo (joinPath env.wsRoot opts.path)
        env.wsRoot opts.pathRemote).2 with _ | w
    · simp only [hdisc] at hout
      rcases hreg : (registerVaults (renameDiscovered
          (env.getVaultsFromRepo (joinPath env.wsRoot opts.path) env.wsRoot
            opts.pathRemote).1 opts.name) env).2 with e | u
      · simp [hreg] at hout
      · simp [hreg] at hout
        exact hout.1.symm
    · simp only [hdisc] at hout
      rcases hws : (VaultAddCommand.addWorkspaceToWorkspace w env).2 with e | u
      · simp [hws] at hout
      · simp [hws] at hout
        exact hout.1.symm

/-- Closed witness for `handleRemoteRepo_name_override`: a single
discovered vault is renamed to the supplied name. -/
theorem handleRemoteRepo_name_override_witness :
    renameDiscovered [⟨"repo", none, none⟩] (some "myvault") =
      [⟨"repo", some "myvault", none⟩] ∧
    renameDiscovered [⟨"a", none, none⟩, ⟨"b", none, none⟩] (some "myvault") =
      [⟨"a", none, none⟩, ⟨"b", none, none⟩] := by
  have h := handleRemoteRepo_name_override
    { sourceTypeResponse := none, qpSelected := ⟨"", ""⟩, qpValue := "",
      pathResponse := none, nameResponse := none, vaultNameResponse := none,
      remoteUrlResponse := none, enableSelfContainedVaults := false,
      configVaultNames := [], workspaceTypeNative := false, wsRoot := "/ws",
      codeWorkspaceSettings := Except.ok ⟨[]⟩,
      getRepoNameFromURL := fun _ => "", remoteUrlToDependencyPath := fun _ _ => "",
      normVaultPath := fun p => p, getVaultsFromRepo := fun _ _ _ => ([], none),
      getRelPath := fun v => v.fsPath, toWorkspaceFolder := fun v => ⟨v.fsPath⟩ }
    ⟨VaultRemoteSource.remote, "", none, none, none⟩
    ⟨"repo", none, none⟩ [⟨"a", none, none⟩, ⟨"b", none, none⟩]
    "myvault" (some "myvault") (by decide)
  exact ⟨h.1, h.2.2.2.1 (by decide)⟩

/-- C5 counterexample: the optional vault-name prompt of the standard
flow refutes the claim as stated.  In `stdEnvNameCancelled` the user
dismisses the name prompt (`nameResponse = none`), yet
`gatherVaultStandard` does not return `undefined`: it returns the
gathered options with the name left unset. -/
theorem gather_cancelled_optional_name_counterexample :
    stdEnvNameCancelled.nameResponse = none ∧
    (VaultAddCommand.gatherVaultStandard .«local» stdEnvNameCancelled).1 =
      .ok { type := .«local», name := none, path := "vault2" } ∧
    (VaultAddCommand.gatherVaultStandard .«local» stdEnvNameCancelled).1 ≠
      GatherOutcome.cancelled := by
  refine ⟨rfl, rfl, ?_⟩
  have h : (VaultAddCommand.gatherVaultStandard .«local» stdEnvNameCancelled).1 =
      GatherOutcome.ok { type := .«local», name := none, path := "vault2" } := rfl
  rw [h]
  simp

/-- C5 (amended): every prompt whose response is required returns
`undefined` on an empty or dismissed response, without throwing and
without performing any effect (gathering emits no `VaultEffect` at
all): the source-type pick, the standard vault-path prompt (local and
remote flows), the self-contained vault-name prompt, the self-contained
remote-URL prompt, and the rename-header new-header prompt.  The
optional vault-name prompt of the standard flow instead proceeds with
the name left unset, and an empty custom git endpoint re-prompts
(leaves the quick pick open) rather than abandoning. -/
theorem required_prompts_cancel_with_undefined :
    (∀ env : VaultAddEnv, env.sourceTypeResponse = none →
      VaultAddCommand.gatherInputs env = (.cancelled, [.pickSourceType])) ∧
    (∀ env : VaultAddEnv, isInputEmpty env.pathResponse = true →
      (VaultAddCommand.gatherVaultStandard .«local» env).1 = .cancelled) ∧
    (∀ env : VaultAddEnv, (env.qpSelected.label = "custom" → env.qpValue ≠ "") →
      isInputEmpty env.pathResponse = true →
      (VaultAddCommand.gatherVaultStandard .remote env).1 = .cancelled) ∧
    (∀ (env : VaultAddEnv) (st : VaultRemoteSource),
      isInputEmpty env.vaultNameResponse = true →
      (VaultAddCommand.gatherVaultSelfContained st env).1 = .cancelled) ∧
    (∀ (env : VaultAddEnv) (name : String), env.vaultNameResponse = some name →
      name ≠ "" → env.configVaultNames.contains name = false →
      isInputEmpty env.remoteUrlResponse = true →
      (VaultAddCommand.gatherVaultSelfContained .remote env).1 = .cancelled) ∧
    (∀ (opts : Option RHCommandOpts) (env : RenameHeaderEnv) (note : RHNote)
      (oh : OldHeader), env.activeNote = some note →
      (opts.getD {}).oldHeader = some oh → (opts.getD {}).newHeader = none →
      isInputEmpty env.newHeaderResponse = true →
      (RenameHeaderCommand.gatherInputs opts env).2 = .ok none) := by
  refine ⟨?_, ?_, ?_, ?_, ?_, ?_⟩
  · intro env h
    simp [VaultAddCommand.gatherInputs, h]
  · intro env h
    rcases hp : env.pathResponse with _ | p
    · simp [VaultAddCommand.gatherVaultStandard, hp]
    · rw [hp] at h
      simp [isInputEmpty] at h
      simp [VaultAddCommand.gatherVaultStandard, hp, h]
  · intro env hc h
    have hcond : ¬(env.qpSelected.label = "custom" ∧
        isInputEmpty (some env.qpValue) = true) := by
      rintro ⟨h1, h2⟩
      simp [isInputEmpty] at h2
      exact hc h1 h2
    rcases hp : env.pathResponse with _ | p
    · simp only [VaultAddCommand.gatherVaultStandard]
      rw [if_neg (by simpa using hcond)]
      simp [hp]
    · rw [hp] at h
      simp [isInputEmpty] at h
      simp only [VaultAddCommand.gatherVaultStandard]
      rw [if_neg (by simpa using hcond)]
      simp [hp, h]
  · intro env st h
    rcases hv : env.vaultNameResponse with _ | v
    · simp [VaultAddCommand.gatherVaultSelfContained, hv]
    · rw [hv] at h
      simp [isInputEmpty] at h
      simp [VaultAddCommand.gatherVaultSelfContained, hv, h]
  · intro env name hv hn hc h
    have hc' : name ∉ env.configVaultNames := by simpa using hc
    rcases hr : env.remoteUrlResponse with _ | r
    · simp [VaultAddCommand.gatherVaultSelfContained, hv, hn, hc', hr]
    · rw [hr] at h
      simp [isInputEmpty] at h
      simp [VaultAddCommand.gatherVaultSelfContained, hv, hn, hc', hr, h]
  · intro opts env note oh hnote hold hnew h
    rcases hr : env.newHeaderResponse with _ | r
    · simp [RenameHeaderCommand.gatherInputs, hnote, hold, hnew, hr]
    · rw [hr] at h
      simp [isInputEmpty] at h
      simp [RenameHeaderCommand.gatherInputs, hnote, hold, hnew, hr, h]

/-- Closed witness for `required_prompts_cancel_with_undefined`:
dismissing the self-contained vault-name prompt and the rename-header
new-header prompt abandons each command. -/
theorem required_prompts_cancel_with_undefined_witness :
    (VaultAddCommand.gatherVaultSelfContained .«local» stdEnvNameCancelled).1 =
      .cancelled ∧
    (RenameHeaderCommand.gatherInputs
      (some { oldHeader := some ⟨"Hello", ⟨⟨0, 3⟩, ⟨0, 8⟩⟩⟩ })
      { rhEnvHappy with newHeaderResponse := none }).2 = .ok none := by
  refine ⟨?_, ?_⟩
  · exact (required_prompts_cancel_with_undefined.2.2.2.1)
      stdEnvNameCancelled .«local» rfl
  · exact (required_prompts_cancel_with_undefined.2.2.2.2.2)
      (some { oldHeader := some ⟨"Hello", ⟨⟨0, 3⟩, ⟨0, 8⟩⟩⟩ })
      { rhEnvHappy with newHeaderResponse := none }
      ⟨"foo", "vault1"⟩ ⟨"Hello", ⟨⟨0, 3⟩, ⟨0, 8⟩⟩⟩ rfl rfl rfl rfl

/-- A string with a nonempty left part is nonempty. -/
theorem append3_ne_empty (a b c : String) (ha : a ≠ "") : a ++ b ++ c ≠ "" := by
  intro h
  have hd := congrArg String.data h
  simp only [String.data_append] at hd
  rcases List.append_eq_nil.mp hd with ⟨hd1, _⟩
  rcases List.append_eq_nil.mp hd1 with ⟨hd2, _⟩
  exact ha (by cases a; simpa using congrArg String.mk hd2)

/-- The only error `addVaultToWorkspace` throws is the missing
`dendron.code-workspace` one. -/
theorem addVaultToWorkspace_error_eq (v : DVault) (env : VaultAddEnv)
    (e : DendronError)
    (h : (VaultAddCommand.addVaultToWorkspace v env).2 = .error e) :
    e = ⟨"no dendron.code-workspace found", some ERROR_STATUS.INVALID_STATE⟩ := by
  unfold VaultAddCommand.addVaultToWorkspace at h
  by_cases hn : env.workspaceTypeNative
  · simp [hn] at h
  · rcases hs : env.codeWorkspaceSettings with u | ws
    · simp [hn, hs] at h
      exact h.symm
    · simp [hn, hs] at h

/-- Errors of the `registerVaults` loop come from
`addVaultToWorkspace`. -/
theorem registerVaults_error_eq (vs : List DVault) (env : VaultAddEnv)
    (e : DendronError) (h : (registerVaults vs env).2 = .error e) :
    e = ⟨"no dendron.code-workspace found", some ERROR_STATUS.INVALID_STATE⟩ := by
  induction vs with
  | nil => simp [registerVaults] at h
  | cons v vs ih =>
    unfold registerVaults at h
    rcases hv : (VaultAddCommand.addVaultToWorkspace v env).2 with e' | u
    · simp only [hv] at h
      simp at h
      exact h ▸ addVaultToWorkspace_error_eq v env e' hv
    · simp only [hv] at h
      exact ih h

/-- Errors of the `addVaultsToWorkspace` loop come from
`addVaultToWorkspace`. -/
theorem addVaultsToWorkspace_error_eq (vs : List DVault) (env : VaultAddEnv)
    (e : DendronError) (h : (addVaultsToWorkspace vs env).2 = .error e) :
    e = ⟨"no dendron.code-workspace found", some ERROR_STATUS.INVALID_STATE⟩ := by
  induction vs with
  | nil => simp [addVaultsToWorkspace] at h
  | cons v vs ih =>
    unfold addVaultsToWorkspace at h
    rcases hv : (VaultAddCommand.addVaultToWorkspace v env).2 with e' | u
    · simp only [hv] at h
      simp at h
      exact h ▸ addVaultToWorkspace_error_eq v env e' hv
    · simp only [hv] at h
      exact ih h

/-- Errors of `addWorkspaceToWorkspace` come from its vault loop. -/
theorem addWorkspaceToWorkspace_error_eq (w : DWorkspace) (env : VaultAddEnv)
    (e : DendronError)
    (h : (VaultAddCommand.addWorkspaceToWorkspace w env).2 = .error e) :
    e = ⟨"no dendron.code-workspace found", some ERROR_STATUS.INVALID_STATE⟩ := by
  unfold VaultAddCommand.addWorkspaceToWorkspace at h
  rcases hv : (addVaultsToWorkspace w.vaults env).2 with e' | u
  · simp only [hv] at h
    simp at h
    exact h ▸ addVaultsToWorkspace_error_eq w.vaults env e' hv
  · simp [hv] at h

/-- Errors of `handleRemoteRepo` come from workspace/vault
registration. -/
theorem handleRemoteRepo_error_eq (opts : CommandOpts) (env : VaultAddEnv)
    (e : DendronError)
    (h : (VaultAddCommand.handleRemoteRepo opts env).2 = .error e) :
    e = ⟨"no dendron.code-workspace found", some ERROR_STATUS.INVALID_STATE⟩ := by
  unfold VaultAddCommand.handleRemoteRepo at h
  rcases hd : (env.getVaultsFromRepo (joinPath env.wsRoot opts.path) env.wsRoot
      opts.pathRemote).2 with _ | w
  · simp only [hd] at h
    rcases hr : (registerVaults (renameDiscovered
        (env.getVaultsFromRepo (joinPath env.wsRoot opts.path) env.wsRoot
          opts.pathRemote).1 opts.name) env).2 with e' | u
    · simp only [hr] at h
      simp at h
      exact h ▸ registerVaults_error_eq _ env e' hr
    · simp [hr] at h
  · simp only [hd] at h
    rcases hr : (VaultAddCommand.addWorkspaceToWorkspace w env).2 with e' | u
    · simp only [hr] at h
      simp at h
      exact h ▸ addWorkspaceToWorkspace_error_eq w env e' hr
    · simp [hr] at h

/-- Errors of `VaultAddCommand.execute` come from registration. -/
theorem vaultAdd_execute_error_eq (opts : CommandOpts) (env : VaultAddEnv)
    (e : DendronError)
    (h : (VaultAddCommand.execute opts env).2 = .error e) :
    e = ⟨"no dendron.code-workspace found", some ERROR_STATUS.INVALID_STATE⟩ := by
  unfold VaultAddCommand.execute at h
  rcases ht : opts.type with _ | _
  · rw [ht] at h
    rcases hv : (VaultAddCommand.addVaultToWorkspace
        ⟨env.normVaultPath opts.path, opts.name, opts.isSelfContained⟩ env).2
      with e' | u
    · simp only [hv] at h
      simp at h
      exact h ▸ addVaultToWorkspace_error_eq _ env e' hv
    · simp [hv] at h
  · rw [ht] at h
    rcases hr : (VaultAddCommand.handleRemoteRepo opts env).2 with e' | vw
    · simp only [hr] at h
      simp at h
      exact h ▸ handleRemoteRepo_error_eq opts env e' hr
    · simp [hr] at h

/-- Models `gatherVaultStandard` never throws. -/
theorem gatherVaultStandard_ne_err (st : VaultRemoteSource)
    (env : VaultAddEnv) (e : DendronError) :
    (VaultAddCommand.gatherVaultStandard st env).1 ≠ .err e := by
  unfold VaultAddCommand.gatherVaultStandard
  rcases st with _ | _
  · rcases hp : env.pathResponse with _ | p
    · simp
    · by_cases h0 : p = "" <;> simp [h0]
  · by_cases hc : env.qpSelected.label = "custom" ∧
        isInputEmpty (some env.qpValue) = true
    · simp [hc]
    · rw [if_neg (by simpa using hc)]
      rcases hp : env.pathResponse with _ | p
      · simp
      · by_cases h0 : p = "" <;> simp [h0]

/-- The only error `gatherVaultSelfContained` throws is the
duplicate-vault-name one. -/
theorem gatherVaultSelfContained_err_eq (st : VaultRemoteSource)
    (env : VaultAddEnv) (e : DendronError)
    (h : (VaultAddCommand.gatherVaultSelfContained st env).1 = .err e) :
    ∃ name, e = ⟨"There is already a vault with the name " ++ name ++
      ", please pick a different name.", none⟩ := by
  unfold VaultAddCommand.gatherVaultSelfContained at h
  rcases hv : env.vaultNameResponse with _ | v
  · simp [hv] at h
  · simp only [hv] at h
    by_cases h0 : v = ""
    · simp [h0] at h
    · by_cases hc : v ∈ env.configVaultNames
      · simp [h0, hc] at h
        exact ⟨v, h.symm⟩
      · rcases st with _ | _
        · simp [h0, hc] at h
        · rcases hr : env.remoteUrlResponse with _ | r
          · simp [h0, hc, hr] at h
          · by_cases hr0 : r = "" <;> simp [h0, hc, hr, hr0] at h

/-- Errors of `gatherInputs` come from the self-contained flow. -/
theorem vaultAdd_gatherInputs_err_eq (env : VaultAddEnv) (e : DendronError)
    (h : (VaultAddCommand.gatherInputs env).1 = .err e) :
    ∃ name, e = ⟨"There is already a vault with the name " ++ name ++
      ", please pick a different name.", none⟩ := by
  unfold VaultAddCommand.gatherInputs at h
  rcases hs : env.sourceTypeResponse with _ | st
  · simp [hs] at h
  · simp only [hs] at h
    by_cases hsc : env.enableSelfContainedVaults
    · simp only [hsc, if_true] at h
      exact gatherVaultSelfContained_err_eq st env e h
    · simp only [hsc, if_false] at h
      exact absurd h (gatherVaultStandard_ne_err st env e)

/-- The errors of `RenameHeaderCommand.gatherInputs` are the
missing-note and missing-header-selection ones, both without status. -/
theorem renameHeader_gatherInputs_error_eq (opts : Option RHCommandOpts)
    (env : RenameHeaderEnv) (e : DendronError)
    (h : (RenameHeaderCommand.gatherInputs opts env).2 = .error e) :
    e = ⟨"You must first open a note to rename a header.", none⟩ ∨
    e = ⟨"You must first select the header you want to rename.", none⟩ := by
  unfold RenameHeaderCommand.gatherInputs at h
  rcases hn : env.activeNote with _ | note
  · simp [hn] at h
    exact Or.inl h.symm
  · simp only [hn] at h
    rcases ho : (opts.getD {}).oldHeader with _ | oh
    · rcases hl : env.selectionLine with _ | line
      · simp [ho, hl] at h
        exact Or.inr h.symm
      · rcases hp : env.parseHeading line with _ | tr
        · simp [ho, hl, hp] at h
          exact Or.inr h.symm
        · rcases hnh : (opts.getD {}).newHeader with _ | nh
          · rcases hrr : env.newHeaderResponse with _ | r
            · simp [ho, hl, hp, hnh, hrr] at h
            · by_cases hr0 : r = "" <;> simp [ho, hl, hp, hnh, hrr, hr0] at h
          · simp [ho, hl, hp, hnh] at h
    · rcases hnh : (opts.getD {}).newHeader with _ | nh
      · rcases hrr : env.newHeaderResponse with _ | r
        · simp [ho, hnh, hrr] at h
        · by_cases hr0 : r = "" <;> simp [ho, hnh, hrr, hr0] at h
      · simp [ho, hnh] at h

/-- Errors of a full `RenameHeaderCommand` run come from
`gatherInputs` (execute returns `undefined`, it never throws). -/
theorem renameHeader_run_error_eq (opts : Option RHCommandOpts)
    (env : RenameHeaderEnv) (e : DendronError) (t : List RHEvent)
    (h : RenameHeaderCommand.run opts env = (t, .error e)) :
    e = ⟨"You must first open a note to rename a header.", none⟩ ∨
    e = ⟨"You must first select the header you want to rename.", none⟩ := by
  unfold RenameHeaderCommand.run at h
  rcases hg : RenameHeaderCommand.gatherInputs opts env with ⟨t', r⟩
  rcases r with e' | o
  · simp only [hg] at h
    simp at h
    exact h.2 ▸ renameHeader_gatherInputs_error_eq opts env e' (by rw [hg])
  · rcases o with _ | req <;> simp [hg] at h

/-- C7: Every error raised inside the rename-header and vault-add
commands is a single error object carrying a message and optionally a
status code, and it is thrown (propagating to the host command runner,
i.e. out of `run`) rather than caught and retried locally; in
particular, choosing a self-contained vault name that already exists in
the workspace config throws such an error, and a missing
`dendron.code-workspace` file throws one with status `INVALID_STATE`. -/
theorem errors_single_object_thrown :
    (∀ (env : VaultAddEnv) (st : VaultRemoteSource) (name : String),
      env.vaultNameResponse = some name → name ≠ "" →
      name ∈ env.configVaultNames →
      (VaultAddCommand.gatherVaultSelfContained st env).1 =
        .err ⟨"There is already a vault with the name " ++ name ++
          ", please pick a different name.", none⟩) ∧
    (∀ (v : DVault) (env : VaultAddEnv), env.workspaceTypeNative = false →
      env.codeWorkspaceSettings = .error () →
      (VaultAddCommand.addVaultToWorkspace v env).2 =
        .error ⟨"no dendron.code-workspace found",
          some ERROR_STATUS.INVALID_STATE⟩) ∧
    (∀ (opts : Option RHCommandOpts) (env : RenameHeaderEnv),
      env.activeNote = none →
      (RenameHeaderCommand.gatherInputs opts env).2 =
        .error ⟨"You must first open a note to rename a header.", none⟩) ∧
    (∀ (env : VaultAddEnv) (e : DendronError) (t : List VaultAddStep),
      VaultAddCommand.run env = (.err e, t) →
      e.message ≠ "" ∧
      ((∃ name, e = ⟨"There is already a vault with the name " ++ name ++
          ", please pick a different name.", none⟩) ∨
        e = ⟨"no dendron.code-workspace found",
          some ERROR_STATUS.INVALID_STATE⟩)) ∧
    (∀ (opts : Option RHCommandOpts) (env : RenameHeaderEnv)
      (e : DendronError) (t : List RHEvent),
      RenameHeaderCommand.run opts env = (t, .error e) →
      e.message ≠ "" ∧ e.status = none ∧
      (e.message = "You must first open a note to rename a header." ∨
       e.message = "You must first select the header you want to rename.")) := by
  refine ⟨?_, ?_, ?_, ?_, ?_⟩
  · intro env st name hv hn hc
    rcases st with _ | _ <;>
      simp [VaultAddCommand.gatherVaultSelfContained, hv, hn, hc]
  · intro v env hn hs
    simp [VaultAddCommand.addVaultToWorkspace, hn, hs]
  · intro opts env hn
    simp [RenameHeaderCommand.gatherInputs, hn]
  · intro env e t h
    have hcls : (∃ name, e = ⟨"There is already a vault with the name " ++
        name ++ ", please pick a different name.", none⟩) ∨
        e = ⟨"no dendron.code-workspace found",
          some ERROR_STATUS.INVALID_STATE⟩ := by
      unfold VaultAddCommand.run at h
      rcases hg : VaultAddCommand.gatherInputs env with ⟨o, t'⟩
      rcases o with _ | _ | opts | e'
      · simp [hg] at h
      · simp [hg] at h
      · simp only [hg] at h
        rcases hx : (VaultAddCommand.execute opts env).2 with e' | vaults
        · simp only [hx] at h
          simp at h
          exact Or.inr (h.1 ▸ vaultAdd_execute_error_eq opts env e' hx)
        · simp [hx] at h
      · simp only [hg] at h
        simp at h
        refine Or.inl ?_
        obtain ⟨name, hname⟩ := vaultAdd_gatherInputs_err_eq env e' (by rw [hg])
        exact ⟨name, h.1 ▸ hname⟩
    refine ⟨?_, hcls⟩
    rcases hcls with ⟨name, hname⟩ | hname
    · rw [hname]
      exact append3_ne_empty _ _ _ (by decide)
    · rw [hname]
      intro hcontra
      exact absurd hcontra (by decide)
  · intro opts env e t h
    have hcls := renameHeader_run_error_eq opts env e t h
    rcases hcls with hname | hname <;> rw [hname] <;>
      exact ⟨by decide, rfl, by simp⟩

/-- Closed witness for `errors_single_object_thrown`: the duplicate
vault name `vault1` throws the duplicate-name error, a missing
`dendron.code-workspace` throws the `INVALID_STATE` error, and
rename-header with no open note throws the open-a-note error. -/
theorem errors_single_object_thrown_witness :
    (VaultAddCommand.gatherVaultSelfContained .«local»
      { stdEnvNameCancelled with
        enableSelfContainedVaults := true,
        vaultNameResponse := some "vault1",
        configVaultNames := ["vault1"] }).1 =
      .err ⟨"There is already a vault with the name " ++ "vault1" ++
        ", please pick a different name.", none⟩ ∧
    (VaultAddCommand.addVaultToWorkspace ⟨"vault2", none, none⟩
      { stdEnvNameCancelled with codeWorkspaceSettings := .error () }).2 =
      .error ⟨"no dendron.code-workspace found",
        some ERROR_STATUS.INVALID_STATE⟩ ∧
    (RenameHeaderCommand.gatherInputs none
      { rhEnvHappy with activeNote := none }).2 =
      .error ⟨"You must first open a note to rename a header.", none⟩ := by
  refine ⟨?_, ?_, ?_⟩
  · exact errors_single_object_thrown.1
      { stdEnvNameCancelled with
        enableSelfContainedVaults := true,
        vaultNameResponse := some "vault1",
        configVaultNames := ["vault1"] }
      .«local» "vault1" rfl (by decide) (by simp)
  · exact errors_single_object_thrown.2.1 ⟨"vault2", none, none⟩
      { stdEnvNameCancelled with codeWorkspaceSettings := .error () } rfl rfl
  · exact errors_single_object_thrown.2.2.1 none
      { rhEnvHappy with activeNote := none } rfl

/-- C3 counterexample: in a fully successful run the command re-parses
the new text BEFORE saving the document, not after as the claim
states.  The first conjunct computes the exact trace of the run; the
second shows the re-parse step strictly precedes the save step,
refuting the claimed order "apply the text edit to the open document
and save it; re-parse the new text". -/
theorem rename_header_save_order_counterexample :
    (RenameHeaderCommand.run none rhEnvHappy).1 =
      [.parseSelectedLine "## Hello", .promptNewHeader,
       .editReplace ⟨⟨0, 3⟩, ⟨0, 8⟩⟩ "World", .reparseNewHeader "World",
       .saveDocument, .updateDecorations,
       .renameNote ⟨⟨"foo", "vault1", "Hello", "Hello"⟩,
         ⟨"foo", "vault1", "World", "World"⟩⟩] ∧
    List.indexOf (RHEvent.reparseNewHeader "World")
      (RenameHeaderCommand.run none rhEnvHappy).1 <
    List.indexOf RHEvent.saveDocument
      (RenameHeaderCommand.run none rhEnvHappy).1 := by
  have h : (RenameHeaderCommand.run none rhEnvHappy).1 =
      [.parseSelectedLine "## Hello", .promptNewHeader,
       .editReplace ⟨⟨0, 3⟩, ⟨0, 8⟩⟩ "World", .reparseNewHeader "World",
       .saveDocument, .updateDecorations,
       .renameNote ⟨⟨"foo", "vault1", "Hello", "Hello"⟩,
         ⟨"foo", "vault1", "World", "World"⟩⟩] := rfl
  refine ⟨h, ?_⟩
  rw [h]
  decide

/-- C3 (amended): the rename-header command performs exactly these
steps in this order: parse the current editor line (or a supplied
header) into a markdown heading AST node to extract the exact header
text; prompt the user for replacement text; apply the text edit to the
open document; re-parse the new text to normalize it (resolving
embedded links); save the document; then invoke `engine.renameNote`
with `oldLoc` and `newLoc` whose `anchorHeader` fields are the
slugified old and normalized-new header texts. -/
theorem rename_header_steps_in_order
    (env : RenameHeaderEnv) (note note2 : RHNote) (line text nh : String)
    (range : Range)
    (hnote : env.activeNote = some note)
    (hline : env.selectionLine = some line)
    (hparse : env.parseHeading line = some (text, range))
    (hresp : env.newHeaderResponse = some nh) (hnh : nh ≠ "")
    (hed : env.activeEditor = true)
    (hdoc : env.noteFromDocument = some note2) :
    RenameHeaderCommand.run none env =
      ([.parseSelectedLine line, .promptNewHeader, .editReplace range nh,
        .reparseNewHeader nh, .saveDocument, .updateDecorations,
        .renameNote ⟨⟨note2.fname, note2.vaultName, env.slug text, text⟩,
          ⟨note2.fname, note2.vaultName,
           env.slug ((env.reparseHeaderText nh).getD nh),
           (env.reparseHeaderText nh).getD nh⟩⟩],
       .ok (some env.renameNotePayload)) := by
  unfold RenameHeaderCommand.run RenameHeaderCommand.gatherInputs
    RenameHeaderCommand.execute
  simp [hnote, hline, hparse, hresp, hnh, hed, hdoc]

/-- Closed witness for `rename_header_steps_in_order` on the concrete
environment `rhEnvHappy`. -/
theorem rename_header_steps_in_order_witness :
    RenameHeaderCommand.run none rhEnvHappy =
      ([.parseSelectedLine "## Hello", .promptNewHeader,
        .editReplace ⟨⟨0, 3⟩, ⟨0, 8⟩⟩ "World", .reparseNewHeader "World",
        .saveDocument, .updateDecorations,
        .renameNote ⟨⟨"foo", "vault1", "Hello", "Hello"⟩,
          ⟨"foo", "vault1", "World", "World"⟩⟩],
       .ok (some 2)) :=
  rename_header_steps_in_order rhEnvHappy ⟨"foo", "vault1"⟩ ⟨"foo", "vault1"⟩
    "## Hello" "Hello" "World" ⟨⟨0, 3⟩, ⟨0, 8⟩⟩ rfl rfl rfl rfl
    (by decide) rfl rfl

/-- When the workspace is NATIVE or the code-workspace settings read
back fine, `addVaultToWorkspace` succeeds. -/
theorem addVaultToWorkspace_ok (v : DVault) (env : VaultAddEnv)
    (h : env.workspaceTypeNative = true ∨
      ∃ ws, env.codeWorkspaceSettings = Except.ok ws) :
    (VaultAddCommand.addVaultToWorkspace v env).2 = .ok () := by
  unfold VaultAddCommand.addVaultToWorkspace
  rcases h with h | ⟨ws, h⟩
  · simp [h]
  · by_cases hn : env.workspaceTypeNative
    · simp [hn]
    · simp [hn, h]

/-- Under the same success condition, the `registerVaults` loop
succeeds and its trace is, per vault in order, the `createVault` call
followed by that vault's workspace patching effects. -/
theorem registerVaults_ok_trace (env : VaultAddEnv)
    (h : env.workspaceTypeNative = true ∨
      ∃ ws, env.codeWorkspaceSettings = Except.ok ws)
    (vs : List DVault) :
    registerVaults vs env =
      (vs.flatMap (fun v => VaultEffect.createVault v ::
        (VaultAddCommand.addVaultToWorkspace v env).1), .ok ()) := by
  induction vs with
  | nil => simp [registerVaults]
  | cons v vs ih =>
    unfold registerVaults
    simp [addVaultToWorkspace_ok v env h, ih]

/-- C4: the vault-add command executes as a linear wizard: it first
prompts for source type, then for path/name; with a remote source it
clones the repository via git, discovers vaults from the clone,
registers each vault with the workspace service and patches the
editor's workspace-folder list and `.gitignore`, and finally reloads
the host window; the reload happens after all vault registration and
file patching has completed (it is the last step of the trace). -/
theorem vault_add_wizard_order
    (env : VaultAddEnv) (p : String) (vs0 : List DVault)
    (henable : env.enableSelfContainedVaults = false)
    (hsrc : env.sourceTypeResponse = some .remote)
    (hcust : env.qpSelected.label ≠ "custom")
    (hpath : env.pathResponse = some p) (hp : p ≠ "")
    (hdisc : env.getVaultsFromRepo (joinPath env.wsRoot p) env.wsRoot
      (some env.qpSelected.src) = (vs0, none))
    (hok : env.workspaceTypeNative = true ∨
      ∃ ws, env.codeWorkspaceSettings = Except.ok ws) :
    VaultAddCommand.run env =
      (.done (renameDiscovered vs0 env.nameResponse),
       ([PromptEvent.pickSourceType, .showRemoteQuickPick, .inputPath,
         .inputName].map VaultAddStep.prompt) ++
       ((VaultEffect.gitClone (some env.qpSelected.src) p ::
          (renameDiscovered vs0 env.nameResponse).flatMap
            (fun v => VaultEffect.createVault v ::
              (VaultAddCommand.addVaultToWorkspace v env).1)) ++
        [VaultEffect.showInfo "finished adding vault",
         VaultEffect.reloadWindow]).map VaultAddStep.effect) ∧
    (VaultAddCommand.run env).2.getLast? =
      some (.effect .reloadWindow) := by
  have hgather : VaultAddCommand.gatherInputs env =
      (.ok { type := .remote, name := env.nameResponse, path := p,
             pathRemote := some env.qpSelected.src },
       [.pickSourceType, .showRemoteQuickPick, .inputPath, .inputName]) := by
    unfold VaultAddCommand.gatherInputs VaultAddCommand.gatherVaultStandard
    rw [hsrc]
    simp [henable, hcust, hpath, hp, isInputEmpty]
  have hexec : VaultAddCommand.execute
      { type := .remote, name := env.nameResponse, path := p,
        pathRemote := some env.qpSelected.src } env =
      ((VaultEffect.gitClone (some env.qpSelected.src) p ::
          (renameDiscovered vs0 env.nameResponse).flatMap
            (fun v => VaultEffect.createVault v ::
              (VaultAddCommand.addVaultToWorkspace v env).1)) ++
        [VaultEffect.showInfo "finished adding vault",
         VaultEffect.reloadWindow],
       .ok (renameDiscovered vs0 env.nameResponse)) := by
    unfold VaultAddCommand.execute VaultAddCommand.handleRemoteRepo
    simp [hdisc, registerVaults_ok_trace env hok]
  have hrun : VaultAddCommand.run env =
      (.done (renameDiscovered vs0 env.nameResponse),
       ([PromptEvent.pickSourceType, .showRemoteQuickPick, .inputPath,
         .inputName].map VaultAddStep.prompt) ++
       ((VaultEffect.gitClone (some env.qpSelected.src) p ::
          (renameDiscovered vs0 env.nameResponse).flatMap
            (fun v => VaultEffect.createVault v ::
              (VaultAddCommand.addVaultToWorkspace v env).1)) ++
        [VaultEffect.showInfo "finished adding vault",
         VaultEffect.reloadWindow]).map VaultAddStep.effect) := by
    unfold VaultAddCommand.run
    rw [hgather]
    simp [hexec]
  refine ⟨hrun, ?_⟩
  rw [hrun]
  have hsplit : ((VaultEffect.gitClone (some env.qpSelected.src) p ::
      (renameDiscovered vs0 env.nameResponse).flatMap
        (fun v => VaultEffect.createVault v ::
          (VaultAddCommand.addVaultToWorkspace v env).1)) ++
      [VaultEffect.showInfo "finished adding vault",
       VaultEffect.reloadWindow]).map VaultAddStep.effect =
      ((VaultEffect.gitClone (some env.qpSelected.src) p ::
        (renameDiscovered vs0 env.nameResponse).flatMap
          (fun v => VaultEffect.createVault v ::
            (VaultAddCommand.addVaultToWorkspace v env).1)).map
        VaultAddStep.effect) ++
      [.effect (.showInfo "finished adding vault"),
       .effect .reloadWindow] := by
    simp
  rw [hsplit, ← List.append_assoc]
  rw [List.getLast?_append_of_ne_nil _ (by simp)]
  rfl

/-- Closed witness for `vault_add_wizard_order` on the concrete
environment `envRemoteHappy`: the run ends with the window reload. -/
theorem vault_add_wizard_order_witness :
    (VaultAddCommand.run envRemoteHappy).2.getLast? =
      some (.effect .reloadWindow) :=
  (vault_add_wizard_order envRemoteHappy "vault2" [⟨"vault2", none, none⟩]
    rfl rfl (by decide) rfl (by decide) rfl
    (Or.inr ⟨⟨[]⟩, rfl⟩)).2

end Dendron
